import Mathlib

/-!
Verification of the ASIN dashboard's status-check core (src/Asin.py): the
URL/ASIN extractors, the availability classifier over fetched markup, the
price extractor, the result reconciler, the catalog insert guard and the
batch check runner. Each definition is a shallow embedding of the
corresponding Python function; HTML parsing is abstracted as a list of
elements (tag, id attribute, class list, text) in document order together
with the raw markup string, matching what BeautifulSoup lookups and the raw
substring scans observe.
-/

namespace Asin

/-- ASCII model of Python's character class checks used by the source. -/
def upperDigit (c : Char) : Bool := c.isUpper || c.isDigit

/-- A candidate identifier: exactly 10 characters, each in `[A-Z0-9]`,
matching the regex character class in `extract_asin`. -/
def validList (r : List Char) : Bool := r.length == 10 && r.all upperDigit

/-- `startsWithL p cs` holds when `p` is a prefix of `cs`. -/
def startsWithL : List Char → List Char → Bool
  | [], _ => true
  | _ :: _, [] => false
  | p :: ps, c :: cs => p == c && startsWithL ps cs

/-- `occursIn pat cs` holds when `pat` occurs contiguously inside `cs`,
modelling Python's `in` on strings and `re.search` position scanning. -/
def occursIn : List Char → List Char → Bool
  | pat, [] => pat.isEmpty
  | pat, c :: rest => startsWithL pat (c :: rest) || occursIn pat rest

/-- Take the next ten characters when they form a `[A-Z0-9]{10}` group,
as the regex capture group does. -/
def takeValid10 (cs : List Char) : Option (List Char) :=
  if validList (cs.take 10) then some (cs.take 10) else none

/-- Try to match one alternative `pat` followed by a ten character
`[A-Z0-9]` group at the current position. -/
def tryPat (pat cs : List Char) : Option (List Char) :=
  if startsWithL pat cs then takeValid10 (cs.drop pat.length) else none

def dpPat : List Char := "/dp/".toList

def gpPat : List Char := "/gp/product/".toList

/-- Try each regex alternative in order at the current position. -/
def matchPats : List (List Char) → List Char → Option (List Char)
  | [], _ => none
  | p :: ps, cs =>
    match tryPat p cs with
    | some r => some r
    | none => matchPats ps cs

/-- Scan positions left to right, returning the leftmost match, as
`re.search` does. -/
def searchPats (pats : List (List Char)) : List Char → Option (List Char)
  | [] => none
  | c :: rest =>
    match matchPats pats (c :: rest) with
    | some r => some r
    | none => searchPats pats rest

/-- Python `url.strip("/")`: drop slashes from both ends. -/
def stripSlashes (cs : List Char) : List Char :=
  ((cs.dropWhile (fun c => c == '/')).reverse.dropWhile (fun c => c == '/')).reverse

/-- Python `s.split("/")`: split on every slash, keeping empty pieces. -/
def splitSlash (cs : List Char) : List (List Char) :=
  cs.foldr
    (fun c acc =>
      if c == '/' then [] :: acc
      else
        match acc with
        | [] => [[c]]
        | a :: rest => (c :: a) :: rest)
    [[]]

/-- The fallback of `extract_asin`: scan the slash-separated parts of the
stripped URL from the end for a ten character alphanumeric part. -/
def segFallback (url : String) : String :=
  match (splitSlash (stripSlashes url.toList)).reverse.find?
      (fun s => s.length == 10 && s.all Char.isAlphanum) with
  | some p => ⟨p⟩
  | none => ""

/-- `extract_asin` from src/Asin.py: regex search for `/dp/([A-Z0-9]{10})`
or `/gp/product/([A-Z0-9]{10})`, else the path-segment fallback, else `""`. -/
def extract_asin (url : String) : String :=
  match searchPats [dpPat, gpPat] url.toList with
  | some r => ⟨r⟩
  | none => segFallback url

/-- `extract_asin_from_url` from src/Asin.py: regex search for
`/dp/([A-Z0-9]{10})` only; `None` when it does not match. -/
def extract_asin_from_url (url : String) : Option String :=
  (searchPats [dpPat] url.toList).map (fun r => (⟨r⟩ : String))

@[simp]
theorem toList_mk (l : List Char) : String.toList ⟨l⟩ = l := rfl

theorem startsWithL_append (p t : List Char) : startsWithL p (p ++ t) = true := by
  induction p with
  | nil => rfl
  | cons a ps ih => simp [startsWithL, ih]

theorem startsWithL_exists {p cs : List Char} (h : startsWithL p cs = true) :
    ∃ t, cs = p ++ t := by
  induction p generalizing cs with
  | nil => exact ⟨cs, rfl⟩
  | cons a ps ih =>
    cases cs with
    | nil => simp [startsWithL] at h
    | cons c cs2 =>
      simp only [startsWithL, Bool.and_eq_true, beq_iff_eq] at h
      obtain ⟨h1, h2⟩ := h
      obtain ⟨t, ht⟩ := ih h2
      exact ⟨t, by simp [h1, ht]⟩

theorem occursIn_of_startsWithL {p cs : List Char} (h : startsWithL p cs = true) :
    occursIn p cs = true := by
  cases cs with
  | nil =>
    cases p with
    | nil => rfl
    | cons a ps => simp [startsWithL] at h
  | cons c rest => simp [occursIn, h]

theorem occursIn_tail {p : List Char} {c : Char} {rest : List Char}
    (h : occursIn p rest = true) : occursIn p (c :: rest) = true := by
  simp [occursIn, h]

theorem tryPat_sound {p cs r : List Char} (h : tryPat p cs = some r) :
    validList r = true ∧ startsWithL (p ++ r) cs = true := by
  unfold tryPat at h
  split at h
  case isTrue hs =>
    unfold takeValid10 at h
    split at h
    case isTrue hv =>
      obtain ⟨t, ht⟩ := startsWithL_exists hs
      subst ht
      rw [List.drop_left] at h hv
      injection h with h
      subst h
      refine ⟨hv, ?_⟩
      have htot : t.take 10 ++ t.drop 10 = t := List.take_append_drop 10 t
      calc startsWithL (p ++ t.take 10) (p ++ t)
          = startsWithL (p ++ t.take 10) (p ++ (t.take 10 ++ t.drop 10)) := by rw [htot]
        _ = startsWithL (p ++ t.take 10) ((p ++ t.take 10) ++ t.drop 10) := by
              rw [List.append_assoc]
        _ = true := startsWithL_append _ _
    case isFalse => exact absurd h (by simp)
  case isFalse => exact absurd h (by simp)

theorem validList_length {ID : List Char} (hv : validList ID = true) :
    ID.length = 10 := by
  unfold validList at hv
  simp only [Bool.and_eq_true, beq_iff_eq] at hv
  exact hv.1

theorem tryPat_complete {p ID cs : List Char} (hv : validList ID = true)
    (hs : startsWithL (p ++ ID) cs = true) : (tryPat p cs).isSome = true := by
  obtain ⟨t, ht⟩ := startsWithL_exists hs
  subst ht
  have hlen : ID.length = 10 := validList_length hv
  unfold tryPat
  have h1 : startsWithL p ((p ++ ID) ++ t) = true := by
    rw [List.append_assoc]
    exact startsWithL_append p (ID ++ t)
  rw [h1]
  simp only [if_true]
  unfold takeValid10
  rw [List.append_assoc, List.drop_left, ← hlen, List.take_left, hv]
  simp

theorem matchPats_sound {pats : List (List Char)} {cs r : List Char}
    (h : matchPats pats cs = some r) :
    validList r = true ∧ ∃ p, p ∈ pats ∧ startsWithL (p ++ r) cs = true := by
  induction pats with
  | nil => simp [matchPats] at h
  | cons q qs ih =>
    unfold matchPats at h
    split at h
    case h_1 x heq =>
      injection h with h
      subst h
      obtain ⟨hv, hs⟩ := tryPat_sound heq
      exact ⟨hv, q, List.mem_cons_self q qs, hs⟩
    case h_2 =>
      obtain ⟨hv, p, hm, hs⟩ := ih h
      exact ⟨hv, p, List.mem_cons_of_mem q hm, hs⟩

theorem matchPats_complete {pats : List (List Char)} {p ID cs : List Char}
    (hmem : p ∈ pats) (hv : validList ID = true)
    (hs : startsWithL (p ++ ID) cs = true) : (matchPats pats cs).isSome = true := by
  induction pats with
  | nil => simp at hmem
  | cons q qs ih =>
    unfold matchPats
    cases hq : tryPat q cs with
    | some r => simp
    | none =>
      rcases List.mem_cons.mp hmem with hpq | hmem2
      · subst hpq
        have := tryPat_complete hv hs
        rw [hq] at this
        simp at this
      · simpa using ih hmem2

theorem searchPats_sound {pats : List (List Char)} {cs r : List Char}
    (h : searchPats pats cs = some r) :
    validList r = true ∧ ∃ p, p ∈ pats ∧ occursIn (p ++ r) cs = true := by
  induction cs with
  | nil => simp [searchPats] at h
  | cons c rest ih =>
    unfold searchPats at h
    split at h
    case h_1 x heq =>
      injection h with h
      subst h
      obtain ⟨hv, p, hm, hs⟩ := matchPats_sound heq
      exact ⟨hv, p, hm, occursIn_of_startsWithL hs⟩
    case h_2 =>
      obtain ⟨hv, p, hm, ho⟩ := ih h
      exact ⟨hv, p, hm, occursIn_tail ho⟩

theorem searchPats_complete {pats : List (List Char)} {p ID cs : List Char}
    (hmem : p ∈ pats) (hv : validList ID = true)
    (ho : occursIn (p ++ ID) cs = true) : (searchPats pats cs).isSome = true := by
  induction cs with
  | nil =>
    simp only [occursIn, List.isEmpty_iff] at ho
    obtain ⟨hp, hid⟩ := List.append_eq_nil.mp ho
    rw [hid] at hv
    simp [validList] at hv
  | cons c rest ih =>
    simp only [occursIn, Bool.or_eq_true] at ho
    unfold searchPats
    cases hm : matchPats pats (c :: rest) with
    | some r => simp
    | none =>
      rcases ho with hs | ho2
      · have := matchPats_complete hmem hv hs
        rw [hm] at this
        simp at this
      · simpa using ih ho2

/-- Claim C2 — counterexample. The claim as stated fails on the code in two
ways. `extract_asin_from_url`, the extractor used by the status-check path,
has no `/gp/product/<ID>` alternative and no segment fallback: on a URL
containing `/gp/product/B000123456` it returns `none` instead of the
identifier. And the regex class of `extract_asin` is `[A-Z0-9]`, not all
alphanumerics: for `/dp/abcdefgh12/zzzzzzzz99` the pattern phase does not
fire and the fallback returns the later segment `zzzzzzzz99`, not the
identifier `abcdefgh12` contained in the `/dp/` pattern. -/
theorem extractor_counterexample :
    extract_asin_from_url "https://x/gp/product/B000123456" = none
    ∧ extract_asin "https://x/dp/abcdefgh12/zzzzzzzz99" = "zzzzzzzz99" :=
  ⟨rfl, rfl⟩

/-- Claim C2 — amended. For every URL containing `/dp/<ID>` or
`/gp/product/<ID>` where `<ID>` is ten characters from `[A-Z0-9]`,
`extract_asin` returns such a contained identifier; when no such pattern
occurs it falls back to scanning the stripped URL's slash-separated
segments for a ten character alphanumeric segment, and returns the empty
string when nothing matches. The scraping-path extractor
`extract_asin_from_url` recognises only `/dp/<ID>` (same character class)
and returns `none` otherwise, with no fallback. -/
theorem extractor_amended (u : String) :
    ((∃ ID : List Char, validList ID = true ∧
        (occursIn (dpPat ++ ID) u.toList || occursIn (gpPat ++ ID) u.toList) = true) →
      validList (extract_asin u).toList = true ∧
      (occursIn (dpPat ++ (extract_asin u).toList) u.toList ||
        occursIn (gpPat ++ (extract_asin u).toList) u.toList) = true)
    ∧ ((∀ ID : List Char, validList ID = true →
        (occursIn (dpPat ++ ID) u.toList || occursIn (gpPat ++ ID) u.toList) = false) →
      extract_asin u = segFallback u)
    ∧ ((∀ ID : List Char, validList ID = true →
        (occursIn (dpPat ++ ID) u.toList || occursIn (gpPat ++ ID) u.toList) = false) →
      (∀ s ∈ splitSlash (stripSlashes u.toList),
        (s.length == 10 && s.all Char.isAlphanum) = false) →
      extract_asin u = "")
    ∧ ((∃ ID : List Char, validList ID = true ∧ occursIn (dpPat ++ ID) u.toList = true) →
      ∃ r : String, extract_asin_from_url u = some r ∧ validList r.toList = true ∧
        occursIn (dpPat ++ r.toList) u.toList = true)
    ∧ ((∀ ID : List Char, validList ID = true → occursIn (dpPat ++ ID) u.toList = false) →
      extract_asin_from_url u = none) := by
  have hnone2 : (∀ ID : List Char, validList ID = true →
      (occursIn (dpPat ++ ID) u.toList || occursIn (gpPat ++ ID) u.toList) = false) →
      searchPats [dpPat, gpPat] u.toList = none := by
    intro hno
    cases h : searchPats [dpPat, gpPat] u.toList with
    | none => rfl
    | some r =>
      obtain ⟨hv, p, hm, ho⟩ := searchPats_sound h
      have hor := hno r hv
      rcases List.mem_pair.mp hm with hp | hp <;> subst hp <;>
        rw [ho] at hor <;> simp at hor
  refine ⟨?_, ?_, ?_, ?_, ?_⟩
  · rintro ⟨ID, hv, ho⟩
    have hsome : (searchPats [dpPat, gpPat] u.toList).isSome = true := by
      cases hdp : occursIn (dpPat ++ ID) u.toList with
      | true => exact searchPats_complete (by simp) hv hdp
      | false =>
        rw [hdp] at ho
        simp only [Bool.false_or] at ho
        exact searchPats_complete (by simp) hv ho
    obtain ⟨r, hr⟩ := Option.isSome_iff_exists.mp hsome
    obtain ⟨hv2, p, hm, ho2⟩ := searchPats_sound hr
    have hx : extract_asin u = ⟨r⟩ := by unfold extract_asin; rw [hr]
    rw [hx]
    refine ⟨by simpa using hv2, ?_⟩
    show (occursIn (dpPat ++ r) u.toList || occursIn (gpPat ++ r) u.toList) = true
    rcases List.mem_pair.mp hm with hp | hp <;> subst hp <;> rw [ho2] <;> simp
  · intro hno
    unfold extract_asin
    rw [hnone2 hno]
  · intro hno hseg
    unfold extract_asin
    rw [hnone2 hno]
    unfold segFallback
    have : (splitSlash (stripSlashes u.toList)).reverse.find?
        (fun s => s.length == 10 && s.all Char.isAlphanum) = none := by
      rw [List.find?_eq_none]
      intro x hx
      rw [hseg x (List.mem_reverse.mp hx)]
      simp
    rw [this]
  · rintro ⟨ID, hv, ho⟩
    have hsome : (searchPats [dpPat] u.toList).isSome = true :=
      searchPats_complete (by simp) hv ho
    obtain ⟨r, hr⟩ := Option.isSome_iff_exists.mp hsome
    obtain ⟨hv2, p, hm, ho2⟩ := searchPats_sound hr
    have hp : p = dpPat := by simpa using hm
    subst hp
    refine ⟨⟨r⟩, ?_, by simpa using hv2, by simpa using ho2⟩
    unfold extract_asin_from_url
    rw [hr]
    rfl
  · intro hno
    cases h : searchPats [dpPat] u.toList with
    | none => unfold extract_asin_from_url; rw [h]; rfl
    | some r =>
      obtain ⟨hv, p, hm, ho⟩ := searchPats_sound h
      have hp : p = dpPat := by simpa using hm
      subst hp
      rw [hno r hv] at ho
      exact absurd ho (by simp)

/-- Claim C2 — witness for the amended theorem at a concrete URL containing
a `/gp/product/<ID>` pattern with an uppercase-alphanumeric identifier. -/
theorem extractor_amended_witness :
    (∃ ID : List Char, validList ID = true ∧
      (occursIn (dpPat ++ ID) ("https://x/gp/product/B000123456").toList ||
        occursIn (gpPat ++ ID) ("https://x/gp/product/B000123456").toList) = true)
    ∧ validList (extract_asin "https://x/gp/product/B000123456").toList = true
    ∧ (occursIn (dpPat ++ (extract_asin "https://x/gp/product/B000123456").toList)
          ("https://x/gp/product/B000123456").toList ||
        occursIn (gpPat ++ (extract_asin "https://x/gp/product/B000123456").toList)
          ("https://x/gp/product/B000123456").toList) = true := by
  have hpat : (∃ ID : List Char, validList ID = true ∧
      (occursIn (dpPat ++ ID) ("https://x/gp/product/B000123456").toList ||
        occursIn (gpPat ++ ID) ("https://x/gp/product/B000123456").toList) = true) :=
    ⟨"B000123456".toList, by decide, by decide⟩
  have h := (extractor_amended "https://x/gp/product/B000123456").1 hpat
  exact ⟨hpat, h.1, h.2⟩

/-- One parsed HTML element as observed by the BeautifulSoup lookups the
source performs: tag name, `id` attribute, class list and text content. -/
structure Element where
  tag : String
  idAttr : Option String
  classes : List String
  text : String
deriving DecidableEq

/-- Fetched markup: the parsed elements in document order plus the raw
markup string scanned by the unavailability-phrase loop. -/
structure Markup where
  elements : List Element
  raw : String
deriving DecidableEq

/-- `soup.find(id=pid)`: first element of any tag with the given id. -/
def findById (m : Markup) (pid : String) : Option Element :=
  m.elements.find? (fun e => e.idAttr == some pid)

/-- `soup.find(tag, {"id": pid})`: first element with the tag and id. -/
def findTagId (m : Markup) (tag pid : String) : Option Element :=
  m.elements.find? (fun e => e.tag == tag && e.idAttr == some pid)

/-- `soup.find(tag, {"class": cls})`: first element with the tag whose
class list contains `cls`. -/
def findTagClass (m : Markup) (tag cls : String) : Option Element :=
  m.elements.find? (fun e => e.tag == tag && e.classes.contains cls)

/-- Python `str.strip()`: drop whitespace from both ends. -/
def pyStrip (s : String) : String :=
  ⟨((s.toList.dropWhile Char.isWhitespace).reverse.dropWhile Char.isWhitespace).reverse⟩

/-- Python `str.replace(c, "")`: remove every occurrence of one character. -/
def removeChar (c : Char) (s : String) : String :=
  ⟨s.toList.filter (fun a => !(a == c))⟩

/-- Python `s[:-1]`. -/
def dropLastChar (s : String) : String := ⟨s.toList.dropLast⟩

/-- Python `s.endswith(".")`: the last character is a dot. -/
def endsWithDot (s : String) : Bool :=
  match s.toList.getLast? with
  | some c => c == '.'
  | none => false

/-- `el.text.strip().replace("\n", "").replace("$", "").strip()`, the
cleanup applied to fixed-id and off-screen price elements. -/
def cleanPriceText (t : String) : String :=
  pyStrip (removeChar '$' (removeChar '\n' (pyStrip t)))

/-- The fixed priority list of price element ids from
`extract_price_from_html`. -/
def price_ids : List String :=
  ["price_inside_buybox", "priceblock_ourprice",
   "priceblock_dealprice", "priceblock_saleprice"]

/-- The `for pid in price_ids` loop body: try ids in list order; an id whose
element exists with non-empty stripped text returns its cleaned text,
otherwise the loop continues. -/
def priceIdLoop (m : Markup) : List String → Option String
  | [] => none
  | pid :: rest =>
    match findById m pid with
    | some el =>
      if pyStrip el.text == "" then priceIdLoop m rest
      else some (cleanPriceText el.text)
    | none => priceIdLoop m rest

/-- The whole fixed-id phase of `extract_price_from_html`. -/
def priceIdScan (m : Markup) : Option String := priceIdLoop m price_ids

/-- `extract_price_from_html` from src/Asin.py. -/
def extract_price_from_html (m : Markup) : String :=
  match priceIdScan m with
  | some p => p
  | none =>
    match findTagClass m "span" "a-price-whole" with
    | some pw =>
      let whole := removeChar '$' (removeChar ',' (pyStrip pw.text))
      let fraction :=
        match findTagClass m "span" "a-price-fraction" with
        | some pf => pyStrip pf.text
        | none => "00"
      (if endsWithDot whole then dropLastChar whole else whole) ++ "." ++ fraction
    | none =>
      match findTagClass m "span" "a-offscreen" with
      | some po => if pyStrip po.text == "" then "" else cleanPriceText po.text
      | none => ""

/-- The fixed unavailability phrases from `is_orderable_from_html`. -/
def unavailable_texts : List String :=
  ["Currently unavailable", "We don\x27t know when or if this item will be back",
   "This product is not available", "out of stock", "unavailable",
   "Sorry, we couldn\x27t find that page."]

/-- Python `msg.lower() in html.lower()`. -/
def containsText (hay needle : String) : Bool :=
  occursIn (needle.toList.map Char.toLower) (hay.toList.map Char.toLower)

/-- `is_orderable_from_html` from src/Asin.py: true when an add-to-cart or
buy-now input/button is present; otherwise the unavailability-phrase loop
runs but both its outcomes return false. -/
def is_orderable_from_html (m : Markup) : Bool :=
  if (findTagId m "input" "add-to-cart-button").isSome
      || (findTagId m "input" "buy-now-button").isSome
      || (findTagId m "button" "add-to-cart-button").isSome
      || (findTagId m "button" "buy-now-button").isSome then
    true
  else if unavailable_texts.any (fun msg => containsText m.raw msg) then
    false
  else
    false

theorem is_orderable_eq (m : Markup) :
    is_orderable_from_html m =
      ((findTagId m "input" "add-to-cart-button").isSome
        || (findTagId m "input" "buy-now-button").isSome
        || (findTagId m "button" "add-to-cart-button").isSome
        || (findTagId m "button" "buy-now-button").isSome) := by
  unfold is_orderable_from_html
  split
  case isTrue h => exact h.symm
  case isFalse h =>
    have h2 := Bool.eq_false_iff.mpr h
    rw [h2]
    split <;> rfl

/-- Claim C4: the availability classifier returns true exactly when an
add-to-cart or buy-now affordance (fixed identifier, `input` or `button`
element) is present anywhere in the markup, and its value never depends on
the raw markup text that the unavailability-phrase loop scans. -/
theorem orderable_affordance_only (els : List Element) (raw raw2 : String) :
    (is_orderable_from_html ⟨els, raw⟩ = true ↔
      ∃ e, e ∈ els ∧ (e.tag = "input" ∨ e.tag = "button") ∧
        (e.idAttr = some "add-to-cart-button" ∨ e.idAttr = some "buy-now-button"))
    ∧ is_orderable_from_html ⟨els, raw⟩ = is_orderable_from_html ⟨els, raw2⟩ := by
  constructor
  · rw [is_orderable_eq]
    simp only [findTagId, Bool.or_eq_true, List.find?_isSome, Bool.and_eq_true,
      beq_iff_eq]
    constructor
    · rintro (((⟨e, he, h1, h2⟩ | ⟨e, he, h1, h2⟩) | ⟨e, he, h1, h2⟩) | ⟨e, he, h1, h2⟩)
      · exact ⟨e, he, Or.inl h1, Or.inl h2⟩
      · exact ⟨e, he, Or.inl h1, Or.inr h2⟩
      · exact ⟨e, he, Or.inr h1, Or.inl h2⟩
      · exact ⟨e, he, Or.inr h1, Or.inr h2⟩
    · rintro ⟨e, he, h1 | h1, h2 | h2⟩
      · exact Or.inl (Or.inl (Or.inl ⟨e, he, h1, h2⟩))
      · exact Or.inl (Or.inl (Or.inr ⟨e, he, h1, h2⟩))
      · exact Or.inl (Or.inr ⟨e, he, h1, h2⟩)
      · exact Or.inr ⟨e, he, h1, h2⟩
  · rw [is_orderable_eq, is_orderable_eq]
    rfl

theorem priceIdLoop_isSome (m : Markup) (l : List String) :
    (priceIdLoop m l).isSome = true ↔
      ∃ pid, pid ∈ l ∧ ∃ el, findById m pid = some el ∧ ¬(pyStrip el.text = "") := by
  induction l with
  | nil => simp [priceIdLoop]
  | cons pid rest ih =>
    cases hf : findById m pid with
    | none =>
      have hred : priceIdLoop m (pid :: rest) = priceIdLoop m rest := by
        conv_lhs => unfold priceIdLoop
        rw [hf]
      rw [hred, ih]
      constructor
      · rintro ⟨q, hq, hex⟩
        exact ⟨q, List.mem_cons_of_mem _ hq, hex⟩
      · rintro ⟨q, hq, el, hel, hne⟩
        rcases List.mem_cons.mp hq with rfl | hq2
        · rw [hf] at hel
          exact absurd hel (by simp)
        · exact ⟨q, hq2, el, hel, hne⟩
    | some el =>
      by_cases hs : pyStrip el.text = ""
      · have hred : priceIdLoop m (pid :: rest) = priceIdLoop m rest := by
          conv_lhs => unfold priceIdLoop
          rw [hf]
          simp [hs]
        rw [hred, ih]
        constructor
        · rintro ⟨q, hq, hex⟩
          exact ⟨q, List.mem_cons_of_mem _ hq, hex⟩
        · rintro ⟨q, hq, el2, hel2, hne⟩
          rcases List.mem_cons.mp hq with rfl | hq2
          · rw [hf] at hel2
            injection hel2 with he
            subst he
            exact absurd hs hne
          · exact ⟨q, hq2, el2, hel2, hne⟩
      · have hred : priceIdLoop m (pid :: rest) = some (cleanPriceText el.text) := by
          conv_lhs => unfold priceIdLoop
          rw [hf]
          simp [hs]
        rw [hred]
        constructor
        · intro _
          exact ⟨pid, List.mem_cons_self _ _, el, hf, hs⟩
        · intro _
          rfl

/-- Claim C5: price extraction priority. The fixed-id phase succeeds exactly
when some id in the fixed list has an element with non-empty stripped text;
when it yields a value that value is the result regardless of any
whole/fraction pair; otherwise a present whole element yields the
whole-plus-fraction composite (fraction defaulting to "00" when the
fraction element is absent); otherwise a present off-screen element yields
its cleaned text; and with none of these the result is the empty string. -/
theorem price_priority (m : Markup) :
    ((priceIdScan m).isSome = true ↔
      ∃ pid, pid ∈ price_ids ∧ ∃ el, findById m pid = some el ∧ ¬(pyStrip el.text = ""))
    ∧ (∀ v, priceIdScan m = some v → extract_price_from_html m = v)
    ∧ (priceIdScan m = none →
        ∀ pw, findTagClass m "span" "a-price-whole" = some pw →
        extract_price_from_html m =
          (if endsWithDot (removeChar '$' (removeChar ',' (pyStrip pw.text)))
            then dropLastChar (removeChar '$' (removeChar ',' (pyStrip pw.text)))
            else removeChar '$' (removeChar ',' (pyStrip pw.text))) ++ "." ++
          (match findTagClass m "span" "a-price-fraction" with
            | some pf => pyStrip pf.text
            | none => "00"))
    ∧ (priceIdScan m = none → findTagClass m "span" "a-price-whole" = none →
        ∀ po, findTagClass m "span" "a-offscreen" = some po →
        extract_price_from_html m =
          (if pyStrip po.text == "" then "" else cleanPriceText po.text))
    ∧ (priceIdScan m = none → findTagClass m "span" "a-price-whole" = none →
        findTagClass m "span" "a-offscreen" = none →
        extract_price_from_html m = "") := by
  refine ⟨priceIdLoop_isSome m price_ids, ?_, ?_, ?_, ?_⟩
  · intro v hv
    unfold extract_price_from_html
    rw [hv]
  · intro h0 pw h1
    unfold extract_price_from_html
    rw [h0, h1]
  · intro h0 h1 po h2
    unfold extract_price_from_html
    rw [h0, h1, h2]
  · intro h0 h1 h2
    unfold extract_price_from_html
    rw [h0, h1, h2]

/-- Claim C5 — witness: markup containing both a fixed-id price element
(`price_inside_buybox` with text `$19.99`) and a whole/fraction pair; the
fixed-id value wins. -/
theorem price_priority_witness :
    priceIdScan (Markup.mk
      [Element.mk "span" (some "price_inside_buybox") [] "$19.99",
       Element.mk "span" none ["a-price-whole"] "29",
       Element.mk "span" none ["a-price-fraction"] "99"] "") = some "19.99"
    ∧ extract_price_from_html (Markup.mk
      [Element.mk "span" (some "price_inside_buybox") [] "$19.99",
       Element.mk "span" none ["a-price-whole"] "29",
       Element.mk "span" none ["a-price-fraction"] "99"] "") = "19.99" := by
  refine ⟨rfl, ?_⟩
  exact (price_priority _).2.1 "19.99" rfl

/-- Claim C10: in the whole-plus-fraction fallback, commas and one trailing
decimal point are stripped from the whole part before concatenation — any
markup whose whole element reads `1,299.` and fraction element reads `99`
(and whose fixed-id phase found nothing) yields `1299.99`. -/
theorem whole_fraction_cleanup (m : Markup) (pw pf : Element)
    (h0 : priceIdScan m = none)
    (h1 : findTagClass m "span" "a-price-whole" = some pw)
    (h2 : findTagClass m "span" "a-price-fraction" = some pf)
    (h3 : pw.text = "1,299.") (h4 : pf.text = "99") :
    extract_price_from_html m = "1299.99" := by
  unfold extract_price_from_html
  simp only [h0, h1, h2, h3, h4]
  rfl

/-- Claim C10 — witness: a concrete markup with whole text `1,299.` and
fraction text `99`. -/
theorem whole_fraction_cleanup_witness :
    extract_price_from_html (Markup.mk
      [Element.mk "span" none ["a-price-whole"] "1,299.",
       Element.mk "span" none ["a-price-fraction"] "99"] "") = "1299.99" :=
  whole_fraction_cleanup _ _ _ rfl rfl rfl rfl rfl

/-- Outcome of one browser navigation: a final URL with markup, the
Selenium `TimeoutException`, or any other exception (carried as a code),
which `get_final_url_and_html` does not catch. -/
inductive FetchOutcome where
  | ok : String → Markup → FetchOutcome
  | timeout : FetchOutcome
  | err : Nat → FetchOutcome
deriving DecidableEq

/-- `get_final_url_and_html` from src/Asin.py: on `TimeoutException` return
the original URL and empty markup; other exceptions propagate. The fixed
settling delay has no observable effect in this model. -/
def get_final_url_and_html (fetch : String → FetchOutcome) (url : String) :
    Except Nat (String × Markup) :=
  match fetch url with
  | FetchOutcome.ok f h => Except.ok (f, h)
  | FetchOutcome.timeout => Except.ok (url, ⟨[], ""⟩)
  | FetchOutcome.err e => Except.error e

/-- The per-row result tuple of `process_asin` (minus the final URL's
duplicate): `(final_url, price, is_redirect, is_unavailable, orderable)`. -/
structure CheckResult where
  finalUrl : String
  price : String
  isRedirect : Bool
  isUnavailable : Bool
  orderable : Bool
deriving DecidableEq

/-- The reconciliation policy embedded in `process_asin` (lines 341-346):
`is_redirect = (original_asin != final_asin)`, baseline
`is_unavailable = not orderable`, and a detected redirect overrides both
flags. Returns `(is_redirect, is_unavailable, orderable)`. -/
def reconcile (originalAsin finalAsin : Option String) (orderable : Bool) :
    Bool × Bool × Bool :=
  let isRedirect := !(originalAsin == finalAsin)
  let isUnavailable := !orderable
  if isRedirect then (true, true, false) else (isRedirect, isUnavailable, orderable)

/-- `process_asin` from src/Asin.py: fetch, classify, reconcile. -/
def process_asin (fetch : String → FetchOutcome) (url : String) :
    Except Nat CheckResult :=
  match get_final_url_and_html fetch url with
  | Except.error e => Except.error e
  | Except.ok (finalUrl, html) =>
    let originalAsin := extract_asin_from_url url
    let finalAsin := extract_asin_from_url finalUrl
    let price := extract_price_from_html html
    let orderable := is_orderable_from_html html
    let t := reconcile originalAsin finalAsin orderable
    Except.ok ⟨finalUrl, price, t.1, t.2.1, t.2.2⟩

/-- One catalog row of the `asins` table: catalog attributes plus the
nullable check-result columns (persisted as "Yes"/"No" strings). -/
structure Record where
  id : Nat
  asin : String
  url : String
  collection : String
  size : String
  color : String
  customer : String
  finalUrl : Option String
  price : Option String
  isRedirect : Option String
  isUnavailable : Option String
  orderable : Option String
  lastChecked : Option String
deriving DecidableEq

/-- A freshly inserted row: catalog attributes set, result columns null,
ASIN derived from the URL as `add_asin_row` does. -/
def mkRecord (newId : Nat) (url collection size color customer : String) : Record :=
  { id := newId, asin := extract_asin url, url := url, collection := collection,
    size := size, color := color, customer := customer, finalUrl := none,
    price := none, isRedirect := none, isUnavailable := none, orderable := none,
    lastChecked := none }

/-- `add_asin_row` from src/Asin.py: reject when the URL already exists in
the catalog (before any mutation), else insert a new row whose id is the
next autoincrement value. Returns the new store and the success flag. -/
def add_asin_row (store : List Record) (newId : Nat)
    (url collection size color customer : String) : List Record × Bool :=
  if store.any (fun r => r.url == url) then (store, false)
  else (store ++ [mkRecord newId url collection size color customer], true)

/-- `update_status_columns` from src/Asin.py: a null/missing row id makes
the write a silent no-op; otherwise the six result columns of the row with
that id are set together. -/
def update_status_columns (store : List Record) (rowId : Option Nat)
    (fu pr rd un od now : String) : List Record :=
  match rowId with
  | none => store
  | some i =>
    store.map (fun r =>
      if r.id == i then
        { r with finalUrl := some fu, price := some pr, isRedirect := some rd,
                 isUnavailable := some un, orderable := some od,
                 lastChecked := some now }
      else r)

def yesNo (b : Bool) : String := if b then "Yes" else "No"

/-- The scraping loop of `run_status_check` (lines 361-368): process each
URL in order, collecting results in memory; an uncaught per-row exception
aborts the loop. On error the URLs fetched so far are reported with it. -/
def scrapePhase (fetch : String → FetchOutcome) :
    List String → Except (Nat × List String) (List CheckResult)
  | [] => Except.ok []
  | u :: rest =>
    match process_asin fetch u with
    | Except.error e => Except.error (e, [u])
    | Except.ok r =>
      match scrapePhase fetch rest with
      | Except.error (e, fs) => Except.error (e, u :: fs)
      | Except.ok rs => Except.ok (r :: rs)

/-- The `df.merge(db_df[["URL", id_col]], on="URL")` id lookup. -/
def lookupId (store : List Record) (u : String) : Option Nat :=
  (store.find? (fun r => r.url == u)).map (fun r => r.id)

/-- Merge ids by URL and keep only rows with a non-null id, as
`df = df[df[id_col].notnull()]` does before the persistence loop. -/
def mergeFilter (store : List Record) (urls : List String)
    (results : List CheckResult) : List (Option Nat × CheckResult) :=
  ((urls.zip results).map (fun p => (lookupId store p.1, p.2))).filter
    (fun p => p.1.isSome)

/-- The persistence loop (lines 390-391): one `update_status_columns` call
per surviving row, each its own write, with the boolean flags serialised as
"Yes"/"No" as the runner does. -/
def persistPhase (store : List Record) (rows : List (Option Nat × CheckResult))
    (now : String) : List Record :=
  rows.foldl
    (fun s p =>
      update_status_columns s p.1 p.2.finalUrl p.2.price (yesNo p.2.isRedirect)
        (yesNo p.2.isUnavailable) (yesNo p.2.orderable) now)
    store

/-- Observable outcome of one `run_status_check` batch: the final store,
the URLs navigated, the propagated exception if any, whether the browser
session was closed on exit, and how many sessions were acquired. -/
structure RunResult where
  store : List Record
  fetched : List String
  err : Option Nat
  sessionClosed : Bool
  acquires : Nat
deriving DecidableEq

/-- `run_status_check` from src/Asin.py: acquire one browser session, run
the scraping loop over every row, then (only after the whole loop) merge
ids, drop unmatched rows and persist row by row. `driver.quit()` sits
between the loop and the persistence phase with no try/finally, so an
uncaught scraping exception leaves the session open. -/
def run_status_check (fetch : String → FetchOutcome) (store : List Record)
    (urls : List String) (now : String) : RunResult :=
  match scrapePhase fetch urls with
  | Except.error (e, fs) => ⟨store, fs, some e, false, 1⟩
  | Except.ok results =>
    ⟨persistPhase store (mergeFilter store urls results) now, urls, none, true, 1⟩

theorem reconcile_eq (oa fa : Option String) (ord : Bool) :
    reconcile oa fa ord =
      if oa = fa then (false, !ord, ord) else (true, true, false) := by
  unfold reconcile
  by_cases h : oa = fa
  · simp [h]
  · simp [h]

/-- Claim C1: the reconciler sets `is_redirect` exactly when the original
and final identifiers differ; a redirect forces `orderable = false` and
`is_unavailable = true` regardless of the classifier output; without a
redirect `is_unavailable` is the negation of the raw orderable flag; hence
in every reconciled result — including every successful `process_asin`
result, whatever the price and markup — `is_unavailable = not orderable`. -/
theorem reconcile_complementary (oa fa : Option String) (ord : Bool) :
    (reconcile oa fa ord).1 = !(oa == fa)
    ∧ (oa ≠ fa → reconcile oa fa ord = (true, true, false))
    ∧ (oa = fa → reconcile oa fa ord = (false, !ord, ord))
    ∧ (reconcile oa fa ord).2.1 = !(reconcile oa fa ord).2.2
    ∧ (∀ (fetch : String → FetchOutcome) (url : String) (r : CheckResult),
        process_asin fetch url = Except.ok r → r.isUnavailable = !r.orderable) := by
  refine ⟨?_, ?_, ?_, ?_, ?_⟩
  · rw [reconcile_eq]
    by_cases h : oa = fa <;> simp [h]
  · intro h
    rw [reconcile_eq, if_neg h]
  · intro h
    rw [reconcile_eq, if_pos h]
  · rw [reconcile_eq]
    by_cases h : oa = fa <;> simp [h]
  · intro fetch url r h
    have hc : ∀ (a b : Option String) (o : Bool),
        (reconcile a b o).2.1 = !(reconcile a b o).2.2 := by
      intro a b o
      rw [reconcile_eq]
      by_cases hab : a = b <;> simp [hab]
    unfold process_asin at h
    cases hg : get_final_url_and_html fetch url with
    | error e => rw [hg] at h; exact absurd h (by simp)
    | ok p =>
      obtain ⟨fu, html⟩ := p
      rw [hg] at h
      simp only [Except.ok.injEq] at h
      rw [← h]
      exact hc _ _ _

/-- Claim C1 — witness: distinct identifiers force the redirect override. -/
theorem reconcile_complementary_witness :
    (some "A" : Option String) ≠ some "B"
    ∧ reconcile (some "A") (some "B") true = (true, true, false) := by
  refine ⟨by decide, ?_⟩
  exact (reconcile_complementary (some "A") (some "B") true).2.1 (by decide)

theorem price_empty : extract_price_from_html ⟨[], ""⟩ = "" := rfl

theorem orderable_empty : is_orderable_from_html ⟨[], ""⟩ = false := by
  rw [is_orderable_eq]
  rfl

/-- Claim C6: when navigation of a URL times out, the fetcher returns the
original URL with empty markup instead of failing, the row is still
reconciled — final URL equal to the input URL, empty price, no redirect,
not orderable, unavailable — the batch does not error, the URL is
navigated exactly once (no retry), and the row still flows into the
persistence phase. -/
theorem timeout_degraded (fetch : String → FetchOutcome) (store : List Record)
    (url now : String) (h : fetch url = FetchOutcome.timeout) :
    process_asin fetch url = Except.ok ⟨url, "", false, true, false⟩
    ∧ (run_status_check fetch store [url] now).fetched = [url]
    ∧ (run_status_check fetch store [url] now).err = none
    ∧ (run_status_check fetch store [url] now).store =
        persistPhase store (mergeFilter store [url] [⟨url, "", false, true, false⟩]) now := by
  have hp : process_asin fetch url = Except.ok ⟨url, "", false, true, false⟩ := by
    simp only [process_asin, get_final_url_and_html, h, price_empty, orderable_empty]
    rw [reconcile_eq]
    simp
  have hs : scrapePhase fetch [url] = Except.ok [⟨url, "", false, true, false⟩] := by
    simp only [scrapePhase, hp]
  have hr : run_status_check fetch store [url] now =
      ⟨persistPhase store (mergeFilter store [url] [⟨url, "", false, true, false⟩]) now,
        [url], none, true, 1⟩ := by
    unfold run_status_check
    rw [hs]
  exact ⟨hp, by rw [hr], by rw [hr], by rw [hr]⟩

/-- Claim C6 — witness: a concrete always-timeout fetch on a `/dp/` URL. -/
theorem timeout_degraded_witness :
    (fun _ : String => FetchOutcome.timeout) "https://x/dp/B000123456" =
      FetchOutcome.timeout
    ∧ process_asin (fun _ : String => FetchOutcome.timeout) "https://x/dp/B000123456" =
        Except.ok ⟨"https://x/dp/B000123456", "", false, true, false⟩ :=
  ⟨rfl, (timeout_degraded (fun _ => FetchOutcome.timeout) []
    "https://x/dp/B000123456" "t" rfl).1⟩

/-- Claim C8: inserting a URL that already exists in the catalog is
rejected before any mutation — the operation reports `false` rather than
raising, and the store (its record count and every record) is unchanged. -/
theorem duplicate_url_rejected (store : List Record) (newId : Nat)
    (url c s co cu : String) (h : ∃ r, r ∈ store ∧ r.url = url) :
    add_asin_row store newId url c s co cu = (store, false) := by
  obtain ⟨r, hr, hu⟩ := h
  have ha : store.any (fun q => q.url == url) = true :=
    List.any_eq_true.mpr ⟨r, hr, beq_iff_eq.mpr hu⟩
  unfold add_asin_row
  rw [ha]
  simp

/-- Claim C8 — witness: a one-record catalog rejects re-inserting its URL. -/
theorem duplicate_url_rejected_witness :
    (∃ r, r ∈ [mkRecord 1 "u" "a" "b" "c" "d"] ∧ r.url = "u")
    ∧ add_asin_row [mkRecord 1 "u" "a" "b" "c" "d"] 2 "u" "x" "y" "z" "w" =
        ([mkRecord 1 "u" "a" "b" "c" "d"], false) := by
  have h : ∃ r, r ∈ [mkRecord 1 "u" "a" "b" "c" "d"] ∧ r.url = "u" :=
    ⟨mkRecord 1 "u" "a" "b" "c" "d", List.mem_singleton_self _, rfl⟩
  exact ⟨h, duplicate_url_rejected _ 2 "u" "x" "y" "z" "w" h⟩

/-- Claim C9: persisting with a null/missing row identity leaves every
record unchanged, and a batch whose URLs match no stored record still
navigates every URL but writes nothing — the rows are filtered out before
the persistence loop. -/
theorem persist_noop_and_filter :
    (∀ (store : List Record) (fu pr rd un od now : String),
      update_status_columns store none fu pr rd un od now = store)
    ∧ (∀ (fetch : String → FetchOutcome) (store : List Record) (urls : List String)
        (now : String) (results : List CheckResult),
        scrapePhase fetch urls = Except.ok results →
        (∀ u, u ∈ urls → lookupId store u = none) →
        (run_status_check fetch store urls now).store = store
        ∧ (run_status_check fetch store urls now).fetched = urls
        ∧ (run_status_check fetch store urls now).err = none) := by
  constructor
  · intro store fu pr rd un od now
    rfl
  · intro fetch store urls now results hok hun
    have hmf : mergeFilter store urls results = [] := by
      unfold mergeFilter
      rw [List.filter_eq_nil_iff]
      intro p hp
      obtain ⟨q, hq, hpq⟩ := List.mem_map.mp hp
      obtain ⟨hq1, _⟩ := List.of_mem_zip hq
      rw [← hpq]
      simp [hun q.1 hq1]
    have hr : run_status_check fetch store urls now =
        ⟨persistPhase store (mergeFilter store urls results) now, urls, none, true, 1⟩ := by
      unfold run_status_check
      rw [hok]
    rw [hr, hmf]
    exact ⟨rfl, rfl, rfl⟩

/-- Claim C9 — witness: a batch over one URL matching no stored record
leaves the one-record store untouched while still fetching the URL. -/
theorem persist_noop_and_filter_witness :
    scrapePhase (fun _ : String => FetchOutcome.timeout) ["w"] =
      Except.ok [⟨"w", "", false, true, false⟩]
    ∧ (run_status_check (fun _ : String => FetchOutcome.timeout)
        [mkRecord 1 "v" "" "" "" ""] ["w"] "t").store = [mkRecord 1 "v" "" "" "" ""]
    ∧ (run_status_check (fun _ : String => FetchOutcome.timeout)
        [mkRecord 1 "v" "" "" "" ""] ["w"] "t").fetched = ["w"] := by
  have hok : scrapePhase (fun _ : String => FetchOutcome.timeout) ["w"] =
      Except.ok [⟨"w", "", false, true, false⟩] := rfl
  have hun : ∀ u, u ∈ ["w"] →
      lookupId [mkRecord 1 "v" "" "" "" ""] u = none := by
    intro u hu
    rw [List.mem_singleton.mp hu]
    rfl
  have h2 := persist_noop_and_filter.2 (fun _ => FetchOutcome.timeout)
    [mkRecord 1 "v" "" "" "" ""] ["w"] "t" [⟨"w", "", false, true, false⟩] hok hun
  exact ⟨hok, h2.1, h2.2.1⟩

/-- Claim C3 — counterexample. Two rows, both present in the store; the
first row's fetch succeeds and the second raises an uncaught exception.
The claim predicts the first row is already persisted; in fact the runner
buffers all scrape results and persists only after the whole loop, so the
error aborts the batch with the store — including the completed first
row, whose `Last Checked` is still null — entirely unchanged. -/
theorem runner_persist_counterexample :
    (run_status_check
        (fun u => if u == "https://x/dp/AAAAAAAAAA"
          then FetchOutcome.ok "https://x/dp/AAAAAAAAAA" ⟨[], ""⟩
          else FetchOutcome.err 7)
        [mkRecord 1 "https://x/dp/AAAAAAAAAA" "" "" "" "",
         mkRecord 2 "https://x/dp/BBBBBBBBBB" "" "" "" ""]
        ["https://x/dp/AAAAAAAAAA", "https://x/dp/BBBBBBBBBB"]
        "2026-01-01").err = some 7
    ∧ (run_status_check
        (fun u => if u == "https://x/dp/AAAAAAAAAA"
          then FetchOutcome.ok "https://x/dp/AAAAAAAAAA" ⟨[], ""⟩
          else FetchOutcome.err 7)
        [mkRecord 1 "https://x/dp/AAAAAAAAAA" "" "" "" "",
         mkRecord 2 "https://x/dp/BBBBBBBBBB" "" "" "" ""]
        ["https://x/dp/AAAAAAAAAA", "https://x/dp/BBBBBBBBBB"]
        "2026-01-01").store =
      [mkRecord 1 "https://x/dp/AAAAAAAAAA" "" "" "" "",
       mkRecord 2 "https://x/dp/BBBBBBBBBB" "" "" "" ""]
    ∧ (mkRecord 1 "https://x/dp/AAAAAAAAAA" "" "" "" "").lastChecked = none :=
  ⟨rfl, rfl, rfl⟩

/-- Claim C3 — amended. The runner scrapes every row first, holding the
results in memory, and persists them only afterwards, one write per row:
an unhandled per-row fetch/classify failure at any row aborts the batch
with every row untouched in the store, while a fully successful scrape is
followed by the per-row persistence pass (each write its own unit). -/
theorem runner_persist_amended (fetch : String → FetchOutcome)
    (store : List Record) (urls : List String) (now : String) :
    (∀ (e : Nat) (fs : List String),
      scrapePhase fetch urls = Except.error (e, fs) →
      (run_status_check fetch store urls now).store = store
      ∧ (run_status_check fetch store urls now).err = some e)
    ∧ (∀ results : List CheckResult,
      scrapePhase fetch urls = Except.ok results →
      (run_status_check fetch store urls now).store =
        persistPhase store (mergeFilter store urls results) now
      ∧ (run_status_check fetch store urls now).err = none)
    ∧ (∀ (s2 : List Record) (p : Option Nat × CheckResult)
        (rest : List (Option Nat × CheckResult)),
      persistPhase s2 (p :: rest) now =
        persistPhase (update_status_columns s2 p.1 p.2.finalUrl p.2.price
          (yesNo p.2.isRedirect) (yesNo p.2.isUnavailable) (yesNo p.2.orderable) now)
          rest now) := by
  refine ⟨?_, ?_, ?_⟩
  · intro e fs h
    have hr : run_status_check fetch store urls now = ⟨store, fs, some e, false, 1⟩ := by
      unfold run_status_check
      rw [h]
    rw [hr]
    exact ⟨rfl, rfl⟩
  · intro results h
    have hr : run_status_check fetch store urls now =
        ⟨persistPhase store (mergeFilter store urls results) now, urls, none, true, 1⟩ := by
      unfold run_status_check
      rw [h]
    rw [hr]
    exact ⟨rfl, rfl⟩
  · intro s2 p rest
    rfl

/-- Claim C3 — witness for the amended theorem: a batch whose only row
fails leaves the (empty) store unchanged and reports the error. -/
theorem runner_persist_amended_witness :
    scrapePhase (fun _ : String => FetchOutcome.err 3) ["q"] = Except.error (3, ["q"])
    ∧ (run_status_check (fun _ : String => FetchOutcome.err 3) [] ["q"] "t").store = []
    ∧ (run_status_check (fun _ : String => FetchOutcome.err 3) [] ["q"] "t").err = some 3 := by
  have h : scrapePhase (fun _ : String => FetchOutcome.err 3) ["q"] =
      Except.error (3, ["q"]) := rfl
  have h2 := (runner_persist_amended (fun _ => FetchOutcome.err 3) [] ["q"] "t").1 3 ["q"] h
  exact ⟨h, h2.1, h2.2⟩

/-- Claim C7 — counterexample. A batch whose row raises an uncaught
exception terminates with the browser session still open: `driver.quit()`
is not protected by try/finally, so the failure path skips it. -/
theorem session_leak_counterexample :
    (run_status_check (fun _ : String => FetchOutcome.err 9) []
      ["https://x/dp/CCCCCCCCCC"] "t").err = some 9
    ∧ (run_status_check (fun _ : String => FetchOutcome.err 9) []
      ["https://x/dp/CCCCCCCCCC"] "t").sessionClosed = false :=
  ⟨rfl, rfl⟩

/-- Claim C7 — amended. The session is acquired exactly once per batch and
is closed on every run that completes the scraping loop (including the
early-return paths after it); a run aborted by an unhandled per-row
exception terminates with the session still open. -/
theorem session_lifecycle_amended (fetch : String → FetchOutcome)
    (store : List Record) (urls : List String) (now : String) :
    (run_status_check fetch store urls now).acquires = 1
    ∧ ((run_status_check fetch store urls now).err = none →
        (run_status_check fetch store urls now).sessionClosed = true)
    ∧ ((run_status_check fetch store urls now).err ≠ none →
        (run_status_check fetch store urls now).sessionClosed = false) := by
  cases h : scrapePhase fetch urls with
  | error ef =>
    obtain ⟨e, fs⟩ := ef
    have hr : run_status_check fetch store urls now = ⟨store, fs, some e, false, 1⟩ := by
      unfold run_status_check
      rw [h]
    rw [hr]
    exact ⟨rfl, fun hc => absurd hc (by simp), fun _ => rfl⟩
  | ok results =>
    have hr : run_status_check fetch store urls now =
        ⟨persistPhase store (mergeFilter store urls results) now, urls, none, true, 1⟩ := by
      unfold run_status_check
      rw [h]
    rw [hr]
    exact ⟨rfl, fun _ => rfl, fun hc => absurd rfl hc⟩

/-- Claim C7 — witness for the amended theorem: an error-free batch closes
the session. -/
theorem session_lifecycle_amended_witness :
    (run_status_check (fun _ : String => FetchOutcome.timeout) [] ["u"] "t").err = none
    ∧ (run_status_check (fun _ : String => FetchOutcome.timeout) [] ["u"] "t").sessionClosed
        = true := by
  have he : (run_status_check (fun _ : String => FetchOutcome.timeout) [] ["u"] "t").err
      = none := rfl
  exact ⟨he,
    (session_lifecycle_amended (fun _ => FetchOutcome.timeout) [] ["u"] "t").2.1 he⟩

end Asin
